import Mathlib

/-!
Verification of the rust-blaster game core: a shallow embedding of the
simulation, collision, spawning and snapshot-replication code, with the
floating-point scalars of the source modelled over the real numbers.

Two generations of the code coexist in the repository and are embedded in
two namespaces:

* `Blaster.Main` embeds the monolithic `src/main.rs` (life-based actors,
  `handle_collisions`, `restart_game`, `spawn_rocks`).
* `Blaster.Net` embeds the refactored modules `src/actor.rs`,
  `src/net_structs.rs` and `src/networking.rs` (kill-flag actors, the
  bincode snapshot codec, the reconciliation merge and the server
  connection registration).  The aggreggate `MainState` and its
  `add_player` live in `game_structs.rs`, which is not among the source
  files; those parts are modelled from the specification and say so in
  their doc comments.
-/

set_option maxHeartbeats 1000000

namespace Blaster

/-- `Vector2`: a pair of 32-bit floats in the source (`ggez::nalgebra`),
modelled as a pair of reals. -/
structure Vec2 where
  x : ℝ
  y : ℝ

/-- Componentwise vector subtraction (`a - b` on `Vector2`). -/
noncomputable def Vec2.sub (a b : Vec2) : Vec2 := ⟨a.x - b.x, a.y - b.y⟩

/-- Componentwise vector addition (`a + b` on `Vector2`). -/
noncomputable def Vec2.add (a b : Vec2) : Vec2 := ⟨a.x + b.x, a.y + b.y⟩

/-- Vector times scalar (`v * c` on `Vector2`). -/
noncomputable def Vec2.scale (v : Vec2) (c : ℝ) : Vec2 := ⟨v.x * c, v.y * c⟩

/-- Vector divided by scalar (`v / c` on `Vector2`). -/
noncomputable def Vec2.divs (v : Vec2) (c : ℝ) : Vec2 := ⟨v.x / c, v.y / c⟩

/-- `norm_squared` of nalgebra: `x² + y²`. -/
def Vec2.normSq (v : Vec2) : ℝ := v.x ^ 2 + v.y ^ 2

/-- `norm` of nalgebra: the Euclidean length `√(x² + y²)`. -/
noncomputable def Vec2.norm (v : Vec2) : ℝ := Real.sqrt v.normSq

theorem Vec2.normSq_nonneg (v : Vec2) : 0 ≤ v.normSq :=
  add_nonneg (sq_nonneg _) (sq_nonneg _)

theorem Vec2.norm_nonneg (v : Vec2) : 0 ≤ v.norm := Real.sqrt_nonneg _

theorem Vec2.sq_norm (v : Vec2) : v.norm ^ 2 = v.normSq :=
  Real.sq_sqrt v.normSq_nonneg

/-- Evaluate a norm at a concrete squared value: `‖v‖ = c` when `v.normSq = c²`. -/
theorem Vec2.norm_eq_of_normSq_eq {v : Vec2} {c : ℝ} (hc : 0 ≤ c)
    (h : v.normSq = c ^ 2) : v.norm = c := by
  rw [Vec2.norm, h, Real.sqrt_sq hc]

/-- Compare a norm against a positive bound via the squared norm. -/
theorem Vec2.norm_lt_iff {v : Vec2} {b : ℝ} (hb : 0 < b) :
    v.norm < b ↔ v.normSq < b ^ 2 := Real.sqrt_lt' hb

/-- The Cauchy–Schwarz inequality in two dimensions. -/
theorem Vec2.inner_sq_le (a b : Vec2) :
    (a.x * b.x + a.y * b.y) ^ 2 ≤ a.normSq * b.normSq := by
  simp only [Vec2.normSq]
  nlinarith [sq_nonneg (a.x * b.y - a.y * b.x)]

/-- Triangle inequality for the embedded Euclidean norm. -/
theorem Vec2.norm_add_le (a b : Vec2) : (a.add b).norm ≤ a.norm + b.norm := by
  have hab : a.x * b.x + a.y * b.y ≤ a.norm * b.norm := by
    have h1 : a.x * b.x + a.y * b.y ≤ |a.x * b.x + a.y * b.y| := le_abs_self _
    have h2 : |a.x * b.x + a.y * b.y| = Real.sqrt ((a.x * b.x + a.y * b.y) ^ 2) :=
      (Real.sqrt_sq_eq_abs _).symm
    have h3 : Real.sqrt ((a.x * b.x + a.y * b.y) ^ 2) ≤
        Real.sqrt (a.normSq * b.normSq) :=
      Real.sqrt_le_sqrt (Vec2.inner_sq_le a b)
    have h4 : Real.sqrt (a.normSq * b.normSq) = a.norm * b.norm :=
      Real.sqrt_mul a.normSq_nonneg _
    linarith
  have hsum : (a.add b).normSq ≤ (a.norm + b.norm) ^ 2 := by
    have ha : a.norm ^ 2 = a.normSq := a.sq_norm
    have hb : b.norm ^ 2 = b.normSq := b.sq_norm
    simp only [Vec2.add, Vec2.normSq] at *
    nlinarith
  calc (a.add b).norm ≤ Real.sqrt ((a.norm + b.norm) ^ 2) :=
        Real.sqrt_le_sqrt hsum
    _ = a.norm + b.norm :=
        Real.sqrt_sq (add_nonneg a.norm_nonneg b.norm_nonneg)

/-- Distance between two points, as the source computes it:
`(a - b).norm()`. -/
noncomputable def Vec2.dist (a b : Vec2) : ℝ := (a.sub b).norm

theorem Vec2.dist_triangle (a b c : Vec2) :
    a.dist c ≤ a.dist b + b.dist c := by
  have h : a.sub c = (a.sub b).add (b.sub c) := by
    simp only [Vec2.sub, Vec2.add, Vec2.mk.injEq]
    constructor <;> ring
  rw [Vec2.dist, h]
  exact Vec2.norm_add_le _ _

/-- `InputState` (five booleans, default all false); identical in both
generations of the source. -/
structure InputState where
  fire : Bool
  up : Bool
  down : Bool
  right : Bool
  left : Bool

/-- `InputState::default()`: everything false. -/
def InputState.init : InputState := ⟨false, false, false, false, false⟩

/-- `PlaySounds`: the render-side sound request flags. -/
structure PlaySounds where
  play_hit : Bool
  play_shot : Bool

/-- `Vec2Serial`: the plain serializable pair of floats. -/
structure Vec2Serial where
  x : ℝ
  y : ℝ

/-- `ActorSerialIntermediate`: serialized position and velocity. -/
structure ActorSerialIntermediate where
  pos : Vec2Serial
  vel : Vec2Serial

/-- `ActorSerialIntermediate::default()`. -/
def ActorSerialIntermediate.init : ActorSerialIntermediate :=
  ⟨⟨0, 0⟩, ⟨0, 0⟩⟩

end Blaster

namespace Blaster.Main

/-! Embedding of the monolithic `src/main.rs`. -/

/-- `ActorType` of main.rs. -/
inductive ActorType where
  | player
  | rock
  | shot
deriving DecidableEq

/-- `Actor` of main.rs: `life` doubles as time-to-live for shots and hit
points for rocks and players; `life ≤ 0` is dead. -/
structure Actor where
  tag : ActorType
  pos : Vec2
  facing : ℝ
  velocity : Vec2
  ang_vel : ℝ
  bbox_size : ℝ
  life : ℝ
  serial_interm : ActorSerialIntermediate

/-- `Player` of main.rs. -/
structure Player where
  actor : Actor
  input : InputState
  last_shot_at : ℝ

/-- The fields of main.rs's `MainState` that the simulation core reads and
writes (assets, text displays and the graphics context are render-side
collaborators and are not part of the state model). -/
structure MainState where
  local_player_index : ℤ
  local_input : InputState
  players : List Player
  shots : List Actor
  rocks : List Actor
  score : ℤ
  screen_width : ℝ
  screen_height : ℝ
  start_time : ℝ
  curr_time : ℝ
  difficulty_mult : ℝ
  play_sounds : PlaySounds

/-- The rock–player collision test of `handle_collisions`:
some player's centre is within the combined bounding radii of the rock
(`pdistance.norm() < player.bbox_size + rock.bbox_size`). -/
def rockHitsPlayer (players : List Player) (rock : Actor) : Prop :=
  ∃ p ∈ players, (rock.pos.sub p.actor.pos).norm < p.actor.bbox_size + rock.bbox_size

open Classical in
/-- The inner shot loop of `handle_collisions` for one rock: every shot
within the combined radii is killed, kills the rock, increments the score
and raises the hit-sound flag.  Returns the updated rock, the updated shot
list, the score and the flag.  The source does not skip already-dead shots
or rocks: the test is purely distance-based. -/
noncomputable def handleShots (rock : Actor) :
    List Actor → ℤ → Bool → Actor × List Actor × ℤ × Bool
  | [], score, hit => (rock, [], score, hit)
  | s :: rest, score, hit =>
    if (s.pos.sub rock.pos).norm < s.bbox_size + rock.bbox_size then
      let s' := { s with life := 0 }
      let rock' := { rock with life := 0 }
      let r := handleShots rock' rest (score + 1) true
      (r.1, s' :: r.2.1, r.2.2.1, r.2.2.2)
    else
      let r := handleShots rock rest score hit
      (r.1, s :: r.2.1, r.2.2.1, r.2.2.2)

open Classical in
/-- The outer rock loop of `handle_collisions`: for each rock, first the
player check (which only sets the `should_restart` flag), then the shot
loop.  Returns updated rocks, shots, score, hit flag and restart flag. -/
noncomputable def handleRocks (players : List Player) :
    List Actor → List Actor → ℤ → Bool → Bool →
    List Actor × List Actor × ℤ × Bool × Bool
  | [], shots, score, hit, restart => ([], shots, score, hit, restart)
  | r :: rest, shots, score, hit, restart =>
    let restart1 := if rockHitsPlayer players r then true else restart
    let a := handleShots r shots score hit
    let b := handleRocks players rest a.2.1 a.2.2.1 a.2.2.2 restart1
    (a.1 :: b.1, b.2.1, b.2.2.1, b.2.2.2.1, b.2.2.2.2)

/-- `MainState::restart_game`: clears inputs, zeroes every player's
last-shot time, zeroes the score, resets the session start time to the
current instant, and marks every shot and rock dead. -/
def MainState.restart_game (s : MainState) (now : ℝ) : MainState :=
  { s with
    local_input := InputState.init
    players := s.players.map fun p => { p with last_shot_at := 0, input := InputState.init }
    score := 0
    start_time := now
    shots := s.shots.map fun a => { a with life := 0 }
    rocks := s.rocks.map fun a => { a with life := 0 } }

/-- `MainState::handle_collisions`: one collision-resolution pass; if any
rock touched any player, the whole session restarts and the hit sound is
requested.  `now` stands for `get_time_since_start(ctx)` read inside
`restart_game`. -/
noncomputable def MainState.handle_collisions (s : MainState) (now : ℝ) : MainState :=
  let r := handleRocks s.players s.rocks s.shots s.score s.play_sounds.play_hit false
  let s1 := { s with
    rocks := r.1
    shots := r.2.1
    score := r.2.2.1
    play_sounds := { s.play_sounds with play_hit := r.2.2.2.1 } }
  if r.2.2.2.2 then
    let s2 := s1.restart_game now
    { s2 with play_sounds := { s2.play_sounds with play_hit := true } }
  else s1

end Blaster.Main

namespace Blaster

/-- Concrete evaluation helper: a norm is below a positive bound when the
squared norm is below the squared bound. -/
theorem Vec2.norm_lt_of_normSq_lt {v : Vec2} {b : ℝ} (hb : 0 < b)
    (h : v.normSq < b ^ 2) : v.norm < b := (Vec2.norm_lt_iff hb).mpr h

/-- Concrete evaluation helper: a norm is not below a positive bound when
the squared norm is at least the squared bound. -/
theorem Vec2.not_norm_lt_of_le_normSq {v : Vec2} {b : ℝ} (hb : 0 < b)
    (h : b ^ 2 ≤ v.normSq) : ¬ v.norm < b := by
  rw [Vec2.norm_lt_iff hb]
  exact not_lt.mpr h

end Blaster

namespace Blaster.Main

/-- The restart flag computed by the rock loop is raised exactly when the
incoming flag was raised or some rock in the list touches some player. -/
theorem handleRocks_restart_iff (players : List Player) :
    ∀ (rocks shots : List Actor) (score : ℤ) (hit restart : Bool),
    (handleRocks players rocks shots score hit restart).2.2.2.2 = true ↔
      (restart = true ∨ ∃ r ∈ rocks, rockHitsPlayer players r) := by
  intro rocks
  induction rocks with
  | nil => intro shots score hit restart; simp [handleRocks]
  | cons r rest ih =>
    intro shots score hit restart
    by_cases hP : rockHitsPlayer players r
    · simp only [handleRocks, if_pos hP, ih]
      simp [hP]
    · simp only [handleRocks, if_neg hP, ih]
      constructor
      · rintro (h | ⟨a, ha, hhit⟩)
        · exact Or.inl h
        · exact Or.inr ⟨a, List.mem_cons_of_mem _ ha, hhit⟩
      · rintro (h | ⟨a, ha, hhit⟩)
        · exact Or.inl h
        · rcases List.mem_cons.mp ha with rfl | ha'
          · exact absurd hhit hP
          · exact Or.inr ⟨a, ha', hhit⟩

/-- C4: if some rock's centre is within the combined bounding radii of some
player's centre, the collision pass restarts the session: the score is
reset to 0, every shot and every rock is marked dead, every player's
last-shot time is zeroed and the session start time is reset to the
current instant. -/
theorem handle_collisions_restarts (s : MainState) (now : ℝ)
    (H : ∃ r ∈ s.rocks, rockHitsPlayer s.players r) :
    (s.handle_collisions now).score = 0 ∧
    (∀ a ∈ (s.handle_collisions now).shots, a.life = 0) ∧
    (∀ a ∈ (s.handle_collisions now).rocks, a.life = 0) ∧
    (∀ p ∈ (s.handle_collisions now).players, p.last_shot_at = 0) ∧
    (s.handle_collisions now).start_time = now ∧
    (s.handle_collisions now).play_sounds.play_hit = true := by
  have hflag :
      (handleRocks s.players s.rocks s.shots s.score s.play_sounds.play_hit
        false).2.2.2.2 = true :=
    (handleRocks_restart_iff s.players s.rocks s.shots s.score
      s.play_sounds.play_hit false).mpr (Or.inr H)
  simp only [MainState.handle_collisions, hflag, if_true, MainState.restart_game]
  refine ⟨trivial, ?_, ?_, ?_, trivial, trivial⟩
  · intro a ha
    obtain ⟨b, _, rfl⟩ := List.mem_map.mp ha
    rfl
  · intro a ha
    obtain ⟨b, _, rfl⟩ := List.mem_map.mp ha
    rfl
  · intro p hp
    obtain ⟨q, _, rfl⟩ := List.mem_map.mp hp
    rfl

end Blaster.Main

namespace Blaster.Main

/-- A rock at the origin (concrete scenario input). -/
noncomputable def c1Rock1 : Actor :=
  ⟨ActorType.rock, ⟨0, 0⟩, 0, ⟨0, 0⟩, 0, 12, 1, ActorSerialIntermediate.init⟩

/-- A rock 5 to the right of the first (concrete scenario input). -/
noncomputable def c1Rock2 : Actor :=
  ⟨ActorType.rock, ⟨5, 0⟩, 0, ⟨0, 0⟩, 0, 12, 1, ActorSerialIntermediate.init⟩

/-- A shot 4 from the first rock and 1 from the second (concrete scenario
input). -/
noncomputable def c1Shot : Actor :=
  ⟨ActorType.shot, ⟨4, 0⟩, 0, ⟨0, 0⟩, 0, 6, 2, ActorSerialIntermediate.init⟩

/-- A player far away from everything (concrete scenario input). -/
noncomputable def c1Player : Player :=
  ⟨⟨ActorType.player, ⟨1000, 0⟩, 0, ⟨0, 0⟩, 0, 12, 1, ActorSerialIntermediate.init⟩,
    InputState.init, 0⟩

/-- The world state of the two-rocks-one-shot scenario. -/
noncomputable def c1State : MainState :=
  ⟨0, InputState.init, [c1Player], [c1Shot], [c1Rock1, c1Rock2], 0,
    1080, 1080, 0, 0, 1, ⟨false, false⟩⟩

/-- C1 (amended): with two rocks 5 apart and a shot 4 from the first rock,
the shot is necessarily within 9 of the second rock, so one collision pass
kills the shot and BOTH rocks and increments the score by exactly 2. -/
theorem c1_two_rocks_one_shot (s : MainState) (now : ℝ) (A B S : Actor)
    (hrocks : s.rocks = [A, B]) (hshots : s.shots = [S])
    (hAb : A.bbox_size = 12) (hBb : B.bbox_size = 12) (hSb : S.bbox_size = 6)
    (hdAB : A.pos.dist B.pos = 5) (hdSA : S.pos.dist A.pos = 4)
    (_hlA : 0 < A.life) (_hlB : 0 < B.life) (_hlS : 0 < S.life)
    (hpA : ¬ rockHitsPlayer s.players A) (hpB : ¬ rockHitsPlayer s.players B) :
    (s.handle_collisions now).score = s.score + 2 ∧
    (s.handle_collisions now).rocks.map Actor.life = [0, 0] ∧
    (s.handle_collisions now).shots.map Actor.life = [0] ∧
    (s.handle_collisions now).play_sounds.play_hit = true := by
  have hSA : (S.pos.sub A.pos).norm < S.bbox_size + A.bbox_size := by
    have h4 : (S.pos.sub A.pos).norm = 4 := hdSA
    rw [h4, hSb, hAb]; norm_num
  have hSB : (S.pos.sub B.pos).norm < S.bbox_size + B.bbox_size := by
    have htri := Vec2.dist_triangle S.pos A.pos B.pos
    rw [hdSA, hdAB] at htri
    have h9 : (S.pos.sub B.pos).norm ≤ 9 := by
      have : S.pos.dist B.pos ≤ 9 := by linarith
      exact this
    rw [hSb, hBb]; linarith
  simp only [MainState.handle_collisions, handleRocks, handleShots,
    hrocks, hshots, hSA, hSB, hpA, hpB, if_true, if_false, ite_true, ite_false,
    Bool.false_eq_true, List.map_cons, List.map_nil]
  refine ⟨by omega, trivial, trivial, trivial⟩

/-- C1 witness at the concrete scenario state. -/
theorem c1_two_rocks_one_shot_witness :
    (c1State.handle_collisions 0).score = c1State.score + 2 ∧
    (c1State.handle_collisions 0).rocks.map Actor.life = [0, 0] ∧
    (c1State.handle_collisions 0).shots.map Actor.life = [0] ∧
    (c1State.handle_collisions 0).play_sounds.play_hit = true := by
  refine c1_two_rocks_one_shot c1State 0 c1Rock1 c1Rock2 c1Shot rfl rfl rfl rfl rfl
    ?_ ?_ ?_ ?_ ?_ ?_ ?_
  · exact Vec2.norm_eq_of_normSq_eq (by norm_num)
      (by norm_num [c1Rock1, c1Rock2, Vec2.sub, Vec2.normSq, Vec2.dist, Vec2.norm])
  · exact Vec2.norm_eq_of_normSq_eq (by norm_num)
      (by norm_num [c1Rock1, c1Shot, Vec2.sub, Vec2.normSq, Vec2.dist, Vec2.norm])
  · norm_num [c1Rock1]
  · norm_num [c1Rock2]
  · norm_num [c1Shot]
  · simp only [c1State, rockHitsPlayer, List.mem_singleton]
    rintro ⟨p, rfl, hlt⟩
    revert hlt
    exact Vec2.not_norm_lt_of_le_normSq (by norm_num [c1Player, c1Rock1])
      (by norm_num [c1Player, c1Rock1, Vec2.sub, Vec2.normSq])
  · simp only [c1State, rockHitsPlayer, List.mem_singleton]
    rintro ⟨p, rfl, hlt⟩
    revert hlt
    exact Vec2.not_norm_lt_of_le_normSq (by norm_num [c1Player, c1Rock2])
      (by norm_num [c1Player, c1Rock2, Vec2.sub, Vec2.normSq])

end Blaster.Main

namespace Blaster.Main

/-- C1 counterexample: at the concrete scenario state (rocks at (0,0) and
(5,0), shot at (4,0), player far away) the collision pass increments the
score by 2, not 1, and kills BOTH rocks, so no rock remains alive. -/
theorem c1_counterexample :
    (c1State.handle_collisions 0).score = 2 ∧
    (c1State.handle_collisions 0).score ≠ c1State.score + 1 ∧
    (c1State.handle_collisions 0).rocks.map Actor.life = [0, 0] ∧
    (c1State.handle_collisions 0).shots.map Actor.life = [0] := by
  have hSA : (c1Shot.pos.sub c1Rock1.pos).norm < c1Shot.bbox_size + c1Rock1.bbox_size :=
    Vec2.norm_lt_of_normSq_lt (by norm_num [c1Shot, c1Rock1])
      (by norm_num [c1Shot, c1Rock1, Vec2.sub, Vec2.normSq])
  have hSB : (c1Shot.pos.sub c1Rock2.pos).norm < c1Shot.bbox_size + c1Rock2.bbox_size :=
    Vec2.norm_lt_of_normSq_lt (by norm_num [c1Shot, c1Rock2])
      (by norm_num [c1Shot, c1Rock2, Vec2.sub, Vec2.normSq])
  have hpA : ¬ rockHitsPlayer [c1Player] c1Rock1 := by
    simp only [rockHitsPlayer, List.mem_singleton]
    rintro ⟨p, rfl, hlt⟩
    revert hlt
    exact Vec2.not_norm_lt_of_le_normSq (by norm_num [c1Player, c1Rock1])
      (by norm_num [c1Player, c1Rock1, Vec2.sub, Vec2.normSq])
  have hpB : ¬ rockHitsPlayer [c1Player] c1Rock2 := by
    simp only [rockHitsPlayer, List.mem_singleton]
    rintro ⟨p, rfl, hlt⟩
    revert hlt
    exact Vec2.not_norm_lt_of_le_normSq (by norm_num [c1Player, c1Rock2])
      (by norm_num [c1Player, c1Rock2, Vec2.sub, Vec2.normSq])
  simp only [c1State, MainState.handle_collisions, handleRocks, handleShots,
    hSA, hSB, hpA, hpB, if_true, if_false, ite_true, ite_false, Bool.false_eq_true,
    List.map_cons, List.map_nil]
  norm_num

/-- A player at the origin (input for the restart scenario). -/
noncomputable def c4Player : Player :=
  ⟨⟨ActorType.player, ⟨0, 0⟩, 0, ⟨0, 0⟩, 0, 12, 1, ActorSerialIntermediate.init⟩,
    InputState.init, 2⟩

/-- A state whose single rock (at (5,0)) overlaps its single player (at the
origin): distance 5 < combined radii 24. -/
noncomputable def c4State : MainState :=
  ⟨0, InputState.init, [c4Player], [c1Shot], [c1Rock2], 5,
    1080, 1080, 3, 4, 1, ⟨false, false⟩⟩

/-- C4 witness at the concrete overlapping state. -/
theorem handle_collisions_restarts_witness :
    (c4State.handle_collisions 7).score = 0 ∧
    (∀ a ∈ (c4State.handle_collisions 7).shots, a.life = 0) ∧
    (∀ a ∈ (c4State.handle_collisions 7).rocks, a.life = 0) ∧
    (∀ p ∈ (c4State.handle_collisions 7).players, p.last_shot_at = 0) ∧
    (c4State.handle_collisions 7).start_time = 7 ∧
    (c4State.handle_collisions 7).play_sounds.play_hit = true :=
  handle_collisions_restarts c4State 7
    ⟨c1Rock2, by simp [c4State], c4Player, by simp [c4State],
      Vec2.norm_lt_of_normSq_lt (by norm_num [c4Player, c1Rock2])
        (by norm_num [c4Player, c1Rock2, Vec2.sub, Vec2.normSq])⟩

end Blaster.Main

namespace Blaster.Main

/-- `vec_from_angle`: the unit vector `(sin a, cos a)` of main.rs. -/
noncomputable def vec_from_angle (angle : ℝ) : Vec2 :=
  ⟨Real.sin angle, Real.cos angle⟩

/-- `create_rock` of main.rs: a rock with zeroed kinematics, bounding
radius `ROCK_BBOX = 12` and `ROCK_LIFE = 1`. -/
noncomputable def create_rock : Actor :=
  ⟨ActorType.rock, ⟨0, 0⟩, 0, ⟨0, 0⟩, 0, 12, 1, ActorSerialIntermediate.init⟩

/-- `time_mult` of `spawn_rocks`: elapsed time scaled by the difficulty
multiplier. -/
noncomputable def MainState.time_mult (s : MainState) : ℝ :=
  s.curr_time * s.difficulty_mult

/-- `spawnpercent` of `spawn_rocks`. -/
noncomputable def MainState.spawnpercent (s : MainState) : ℝ :=
  s.time_mult / 1600 + 0.01

/-- `speed_mod` of `spawn_rocks` (`powf(time_mult * 4, 0.85) + 100`). -/
noncomputable def MainState.speed_mod (s : MainState) : ℝ :=
  (s.time_mult * 4) ^ (0.85 : ℝ) + 100

/-- `max_angle` of `spawn_rocks`, capped at 0.5 radians. -/
noncomputable def MainState.max_angle (s : MainState) : ℝ :=
  if s.time_mult / 240 > 0.5 then 0.5 else s.time_mult / 240

/-- One sub-step of `spawn_rocks` that passed the spawn test.  The random
draws of the source are explicit arguments: `r_angle`, `r_x`, `r_speed`
are uniform in `[0,1)` and `negate` is the random sign bool.  The rock
spawns at a random x along the top edge with a velocity of angle
`π + angle` (straight down plus the bounded random deviation) and speed
`r_speed * speed_mod + speed_mod / 2`. -/
noncomputable def MainState.spawnRock (s : MainState) (r_angle : ℝ)
    (negate : Bool) (r_x r_speed : ℝ) : Actor :=
  let angle := if negate then -(r_angle * s.max_angle) else r_angle * s.max_angle
  let x_pos := r_x * s.screen_width - s.screen_width / 2
  let y_pos := s.screen_height / 2 - 15
  let speed := r_speed * s.speed_mod + s.speed_mod / 2
  { create_rock with
    pos := ⟨x_pos, y_pos⟩
    velocity := (vec_from_angle (Real.pi + angle)).scale speed }

/-- The spawn test of one sub-step: the uniform draw is below
`spawnpercent`. -/
noncomputable def MainState.spawnHappens (s : MainState) (r_gate : ℝ) : Prop :=
  r_gate < s.spawnpercent

/-- C9: with difficulty multiplier 0, `time_mult` is 0, so each sub-step
spawns with threshold exactly 0.01, the angular deviation bound is 0, and
a spawned rock's speed lies in [50,150] with its velocity pointing exactly
straight down (the direction of angle π, zero deviation). -/
theorem spawn_rocks_zero_difficulty (s : MainState) (r_angle : ℝ)
    (negate : Bool) (r_x r_speed : ℝ)
    (hd : s.difficulty_mult = 0) (h0 : 0 ≤ r_speed) (h1 : r_speed < 1) :
    s.spawnpercent = 1 / 100 ∧
    (∀ r_gate : ℝ, s.spawnHappens r_gate ↔ r_gate < 1 / 100) ∧
    s.max_angle = 0 ∧
    50 ≤ (s.spawnRock r_angle negate r_x r_speed).velocity.norm ∧
    (s.spawnRock r_angle negate r_x r_speed).velocity.norm ≤ 150 ∧
    (s.spawnRock r_angle negate r_x r_speed).velocity =
      (vec_from_angle Real.pi).scale
        ((s.spawnRock r_angle negate r_x r_speed).velocity.norm) := by
  have htm : s.time_mult = 0 := by simp [MainState.time_mult, hd]
  have hsp : s.spawnpercent = 1 / 100 := by
    rw [MainState.spawnpercent, htm]; norm_num
  have hma : s.max_angle = 0 := by
    rw [MainState.max_angle, htm]; norm_num
  have hsm : s.speed_mod = 100 := by
    rw [MainState.speed_mod, htm, show (0 : ℝ) * 4 = 0 by ring,
      Real.zero_rpow (by norm_num)]
    norm_num
  have hang : (if negate then -(r_angle * s.max_angle) else r_angle * s.max_angle) = 0 := by
    rw [hma]; cases negate <;> simp
  have hvel : (s.spawnRock r_angle negate r_x r_speed).velocity =
      (vec_from_angle Real.pi).scale (r_speed * 100 + 50) := by
    simp only [MainState.spawnRock, hang, add_zero, hsm]
    norm_num
  have hpi : vec_from_angle Real.pi = ⟨0, -1⟩ := by
    simp [vec_from_angle, Real.sin_pi, Real.cos_pi]
  have hnorm : (s.spawnRock r_angle negate r_x r_speed).velocity.norm =
      r_speed * 100 + 50 := by
    rw [hvel, hpi]
    exact Vec2.norm_eq_of_normSq_eq (by linarith)
      (by simp [Vec2.scale, Vec2.normSq]; ring)
  refine ⟨hsp, ?_, hma, ?_, ?_, ?_⟩
  · intro r_gate
    rw [MainState.spawnHappens, hsp]
  · rw [hnorm]; linarith
  · rw [hnorm]; linarith
  · rw [hnorm, hvel]

/-- An empty world with difficulty multiplier 0 at time 12. -/
noncomputable def c9State : MainState :=
  ⟨0, InputState.init, [], [], [], 0, 1080, 1080, 0, 12, 0, ⟨false, false⟩⟩

/-- C9 witness at a concrete state and concrete random draws. -/
theorem spawn_rocks_zero_difficulty_witness :
    c9State.spawnpercent = 1 / 100 ∧
    (∀ r_gate : ℝ, c9State.spawnHappens r_gate ↔ r_gate < 1 / 100) ∧
    c9State.max_angle = 0 ∧
    50 ≤ (c9State.spawnRock (1/3) true (1/2) (1/4)).velocity.norm ∧
    (c9State.spawnRock (1/3) true (1/2) (1/4)).velocity.norm ≤ 150 ∧
    (c9State.spawnRock (1/3) true (1/2) (1/4)).velocity =
      (vec_from_angle Real.pi).scale
        ((c9State.spawnRock (1/3) true (1/2) (1/4)).velocity.norm) :=
  spawn_rocks_zero_difficulty c9State (1/3) true (1/2) (1/4)
    (by norm_num [c9State]) (by norm_num) (by norm_num)

end Blaster.Main

namespace Blaster.Net

/-! Embedding of the refactored modules: `src/actor.rs`,
`src/net_structs.rs` and `src/networking.rs`. -/

/-- `ActorType` of actor.rs. -/
inductive ActorType where
  | player
  | rock
  | shot
deriving DecidableEq

/-- `Actor` of src/actor.rs: `kill` marks dead actors.  `pos` and
`velocity` are `#[serde(skip, default = "na::zero")]`: they are not
serialized and are reconstructed as zero on deserialization, with
`serial_interm` carrying their values across the wire. -/
structure Actor where
  tag : ActorType
  pos : Vec2
  facing : ℝ
  velocity : Vec2
  ang_vel : ℝ
  bbox_size : ℝ
  kill : Bool
  serial_interm : ActorSerialIntermediate

/-- `Actor::pre_serialize`: copy `pos` and `velocity` into the
serializable intermediate. -/
noncomputable def Actor.pre_serialize (a : Actor) : Actor :=
  { a with serial_interm := ⟨⟨a.pos.x, a.pos.y⟩, ⟨a.velocity.x, a.velocity.y⟩⟩ }

/-- `Actor::post_deserialize`: restore `pos` and `velocity` from the
serializable intermediate. -/
noncomputable def Actor.post_deserialize (a : Actor) : Actor :=
  { a with
    pos := ⟨a.serial_interm.pos.x, a.serial_interm.pos.y⟩
    velocity := ⟨a.serial_interm.vel.x, a.serial_interm.vel.y⟩ }

/-- `Actor::create_player_actor` of actor.rs (`PLAYER_BBOX = 12`). -/
noncomputable def Actor.create_player_actor : Actor :=
  ⟨ActorType.player, ⟨0, 0⟩, 0, ⟨0, 0⟩, 0, 12, false, ActorSerialIntermediate.init⟩

/-- `Actor::tick_physics` of actor.rs: clamp the velocity to
`MAX_PHYSICS_VEL = 950` by rescaling (`velocity / norm_sq.sqrt() * MAX`)
when `norm_sq > MAX²`, then integrate the position by `velocity * delta`
and add the angular velocity to the facing. -/
noncomputable def Actor.tick_physics (a : Actor) (delta : ℝ) : Actor :=
  let vel :=
    if a.velocity.normSq > 950 ^ 2 then
      (a.velocity.divs (Real.sqrt a.velocity.normSq)).scale 950
    else a.velocity
  { a with
    velocity := vel
    pos := a.pos.add (vel.scale delta)
    facing := a.facing + a.ang_vel }

/-- Rescaling a vector by `950 / s` where `s²` is its squared norm yields
squared norm exactly `950²`. -/
theorem scale_div_normSq (v : Vec2) (s : ℝ) (hs : s ≠ 0)
    (hsq : v.x ^ 2 + v.y ^ 2 = s ^ 2) :
    ((v.divs s).scale 950).normSq = 950 ^ 2 := by
  simp only [Vec2.divs, Vec2.scale, Vec2.normSq]
  field_simp
  linear_combination (950 : ℝ) ^ 2 * hsq

/-- C5: one integration step rescales any velocity of magnitude above 950
to magnitude exactly 950 with unchanged direction (a positive scalar
multiple of the original), and leaves any velocity of magnitude at most
950 unscaled. -/
theorem tick_physics_clamps (a : Actor) (delta : ℝ) :
    (a.velocity.normSq > 950 ^ 2 →
      (a.tick_physics delta).velocity.norm = 950 ∧
      ∃ c : ℝ, 0 < c ∧ (a.tick_physics delta).velocity = a.velocity.scale c) ∧
    (a.velocity.normSq ≤ 950 ^ 2 → (a.tick_physics delta).velocity = a.velocity) := by
  constructor
  · intro h
    have hpos : 0 < a.velocity.normSq := lt_trans (by norm_num) h
    have hs : 0 < Real.sqrt a.velocity.normSq := Real.sqrt_pos.mpr hpos
    have hs2 : Real.sqrt a.velocity.normSq ^ 2 = a.velocity.normSq :=
      Real.sq_sqrt (le_of_lt hpos)
    have hvel : (a.tick_physics delta).velocity =
        (a.velocity.divs (Real.sqrt a.velocity.normSq)).scale 950 := by
      simp only [Actor.tick_physics, if_pos h]
    constructor
    · rw [hvel]
      apply Vec2.norm_eq_of_normSq_eq (by norm_num)
      have hy : a.velocity.x ^ 2 + a.velocity.y ^ 2 =
          Real.sqrt a.velocity.normSq ^ 2 := by
        rw [hs2]; rfl
      exact scale_div_normSq a.velocity _ (ne_of_gt hs) hy
    · refine ⟨950 / Real.sqrt a.velocity.normSq, div_pos (by norm_num) hs, ?_⟩
      rw [hvel]
      simp only [Vec2.divs, Vec2.scale, Vec2.mk.injEq]
      constructor <;> ring
  · intro h
    simp only [Actor.tick_physics, if_neg (not_lt.mpr h)]

/-- An actor moving at speed 1000 in direction (3,4)/5 (concrete input for
the clamp). -/
noncomputable def c5Actor : Actor :=
  ⟨ActorType.shot, ⟨0, 0⟩, 0, ⟨600, 800⟩, 0.1, 6, false, ActorSerialIntermediate.init⟩

/-- C5 witness: at speed 1000 > 950 the clamp is exercised for real. -/
theorem tick_physics_clamps_witness :
    (c5Actor.velocity.normSq > 950 ^ 2) ∧
    ((c5Actor.tick_physics 1).velocity.norm = 950 ∧
      ∃ c : ℝ, 0 < c ∧ (c5Actor.tick_physics 1).velocity = c5Actor.velocity.scale c) :=
  ⟨by norm_num [c5Actor, Vec2.normSq],
    (tick_physics_clamps c5Actor 1).1 (by norm_num [c5Actor, Vec2.normSq])⟩

end Blaster.Net

namespace Blaster.Net

/-- `Player` of `game_structs.rs`.  Modelled from the spec: that file is
not among the repository's source files; spec §3 gives
`Player = { actor, input, last_shot_time, index }`, and net_structs.rs
reads `actor`, `input` and `last_shot_at` on it. -/
structure Player where
  actor : Actor
  input : InputState
  last_shot_at : ℝ
  index : ℕ

/-- `Player::create` of `game_structs.rs`.  Modelled from the spec: a new
player has a role-fixed player actor with zeroed kinematics, default
(all-false) input and zero last-shot time. -/
noncomputable def Player.create (idx : ℕ) : Player :=
  ⟨Actor.create_player_actor, InputState.init, 0, idx⟩

/-- The `MainState` aggregate of `game_structs.rs`.  Modelled from the
spec (`WorldState`, §3), restricted to the fields the embedded modules
read and write. -/
structure MainState where
  players : List Player
  shots : List Actor
  rocks : List Actor
  score : ℤ
  curr_time : ℝ
  local_player_index : Option ℕ
  local_input : InputState
  local_shots_made : List Actor
  difficulty_mult : ℝ
  connections : ℕ
  play_sounds : PlaySounds

/-- `MainState::add_player` of `game_structs.rs`.  Modelled from the
spec: `add_player() -> index` is monotonic and a player is "Created on
... each accepted inbound connection (index = current player count)"; it
appends one new player and returns that index, the count before the
append. -/
noncomputable def MainState.add_player (s : MainState) : MainState × ℕ :=
  ({ s with players := s.players ++ [Player.create s.players.length] },
    s.players.length)

/-- Write `f` through index `i` of a list, leaving every other position
alone (the embedding of an indexed assignment `xs[i] = ...`). -/
def modifyAt {α : Type} (l : List α) (i : ℕ) (f : α → α) : List α :=
  match l, i with
  | [], _ => []
  | a :: rest, 0 => f a :: rest
  | a :: rest, n + 1 => a :: modifyAt rest n f

theorem modifyAt_length {α : Type} (l : List α) (i : ℕ) (f : α → α) :
    (modifyAt l i f).length = l.length := by
  induction l generalizing i with
  | nil => rfl
  | cons a rest ih =>
    cases i with
    | zero => rfl
    | succ n => simp [modifyAt, ih]

theorem modifyAt_getD_same {α : Type} (l : List α) (i : ℕ) (f : α → α)
    (d : α) (hi : i < l.length) :
    (modifyAt l i f).getD i d = f (l.getD i d) := by
  induction l generalizing i with
  | nil => simp at hi
  | cons a rest ih =>
    cases i with
    | zero => rfl
    | succ n =>
      simp only [modifyAt, List.getD_cons_succ]
      exact ih n (by simpa using hi)

theorem modifyAt_getD_other {α : Type} (l : List α) (i j : ℕ) (f : α → α)
    (d : α) (hj : j ≠ i) :
    (modifyAt l i f).getD j d = l.getD j d := by
  induction l generalizing i j with
  | nil => rfl
  | cons a rest ih =>
    cases i with
    | zero =>
      cases j with
      | zero => exact absurd rfl hj
      | succ n => rfl
    | succ n =>
      cases j with
      | zero => rfl
      | succ k =>
        simp only [modifyAt, List.getD_cons_succ]
        exact ih n k (fun h => hj (by rw [h]))

/-- `NetClientInput` (net_structs.rs): the periodic client→server
message. -/
structure NetClientInput where
  input_state : InputState
  final_position : Vec2Serial
  shots_made : List Actor

/-- `NetClientInput::update_main_state` (net_structs.rs), run on the
server with the registered `player_id`: raise the shot-sound flag when
the message carries shots, append the post-deserialized shots to the
world's shot list, set the player's input to the transmitted input state
and overwrite the player's actor position with the transmitted final
position. -/
noncomputable def NetClientInput.update_main_state (m : NetClientInput)
    (player_id : ℕ) (s : MainState) : MainState :=
  let s1 := { s with
    play_sounds := { s.play_sounds with
      play_shot := if 0 < m.shots_made.length then true else s.play_sounds.play_shot }
    shots := s.shots ++ m.shots_made.map Actor.post_deserialize }
  let s2 := { s1 with
    players := modifyAt s1.players player_id fun p => { p with input := m.input_state } }
  { s2 with
    players := modifyAt s2.players player_id fun p =>
      { p with actor := { p.actor with
          pos := ⟨m.final_position.x, m.final_position.y⟩ } } }

end Blaster.Net

namespace Blaster.Net

/-- C7 (amended): applying a received `ClientInput` message sets the
registered player's input to the transmitted input state, but it also
overwrites that player's actor position with the transmitted final
position and appends the transmitted shots to the world's shot list
(raising the shot-sound flag when the message carries any); every other
player and the remaining world fields are unchanged. -/
theorem client_input_update_effect (m : NetClientInput) (i : ℕ)
    (s : MainState) (d : Player) (hi : i < s.players.length) :
    ((m.update_main_state i s).players.getD i d).input = m.input_state ∧
    ((m.update_main_state i s).players.getD i d).actor.pos =
      ⟨m.final_position.x, m.final_position.y⟩ ∧
    ((m.update_main_state i s).players.getD i d).actor.facing =
      (s.players.getD i d).actor.facing ∧
    ((m.update_main_state i s).players.getD i d).last_shot_at =
      (s.players.getD i d).last_shot_at ∧
    (∀ j : ℕ, j ≠ i →
      (m.update_main_state i s).players.getD j d = s.players.getD j d) ∧
    (m.update_main_state i s).players.length = s.players.length ∧
    (m.update_main_state i s).shots =
      s.shots ++ m.shots_made.map Actor.post_deserialize ∧
    (m.update_main_state i s).rocks = s.rocks ∧
    (m.update_main_state i s).score = s.score ∧
    (m.update_main_state i s).curr_time = s.curr_time ∧
    (m.update_main_state i s).play_sounds.play_shot =
      (if 0 < m.shots_made.length then true else s.play_sounds.play_shot) := by
  have hlen1 : ∀ (l : List Player) (f : Player → Player), (modifyAt l i f).length = l.length :=
    fun l f => modifyAt_length l i f
  refine ⟨?_, ?_, ?_, ?_, ?_, ?_, rfl, rfl, rfl, rfl, rfl⟩
  · simp only [NetClientInput.update_main_state]
    rw [modifyAt_getD_same _ _ _ _ (by rw [hlen1]; exact hi),
      modifyAt_getD_same _ _ _ _ hi]
  · simp only [NetClientInput.update_main_state]
    rw [modifyAt_getD_same _ _ _ _ (by rw [hlen1]; exact hi)]
  · simp only [NetClientInput.update_main_state]
    rw [modifyAt_getD_same _ _ _ _ (by rw [hlen1]; exact hi),
      modifyAt_getD_same _ _ _ _ hi]
  · simp only [NetClientInput.update_main_state]
    rw [modifyAt_getD_same _ _ _ _ (by rw [hlen1]; exact hi),
      modifyAt_getD_same _ _ _ _ hi]
  · intro j hj
    simp only [NetClientInput.update_main_state]
    rw [modifyAt_getD_other _ _ _ _ _ hj, modifyAt_getD_other _ _ _ _ _ hj]
  · simp only [NetClientInput.update_main_state]
    rw [hlen1, hlen1]

/-- A shot carried by the concrete client message, with serialized
position (3, 4) and velocity (0, 9). -/
noncomputable def c7Shot : Actor :=
  ⟨ActorType.shot, ⟨0, 0⟩, 0, ⟨0, 0⟩, 0.1, 6, false, ⟨⟨3, 4⟩, ⟨0, 9⟩⟩⟩

/-- A concrete client message carrying one shot, fire pressed and final
position (1, 2). -/
noncomputable def c7Msg : NetClientInput :=
  ⟨⟨true, false, false, false, false⟩, ⟨1, 2⟩, [c7Shot]⟩

/-- A concrete server state with one registered player at the origin and
no shots. -/
noncomputable def c7State : MainState :=
  ⟨[Player.create 0], [], [], 0, 0, some 0, InputState.init, [], 1, 1,
    ⟨false, false⟩⟩

/-- C7 counterexample: applying the concrete `ClientInput` message does
NOT leave the shot list and the player's actor position unchanged: the
shot list grows by the transmitted shot and the position is overwritten
with the transmitted final position. -/
theorem c7_counterexample :
    (c7Msg.update_main_state 0 c7State).shots ≠ c7State.shots ∧
    ((c7Msg.update_main_state 0 c7State).players.getD 0 (Player.create 0)).actor.pos ≠
      (c7State.players.getD 0 (Player.create 0)).actor.pos := by
  constructor
  · intro h
    have hlen := congrArg List.length h
    simp [NetClientInput.update_main_state, c7Msg, c7State] at hlen
  · intro h
    have hx := congrArg Vec2.x h
    simp [NetClientInput.update_main_state, modifyAt, c7Msg, c7State,
      Player.create, Actor.create_player_actor] at hx

/-- C7 witness at the concrete message and state. -/
theorem client_input_update_effect_witness :
    ((c7Msg.update_main_state 0 c7State).players.getD 0 (Player.create 0)).input = c7Msg.input_state ∧
    ((c7Msg.update_main_state 0 c7State).players.getD 0 (Player.create 0)).actor.pos =
      ⟨c7Msg.final_position.x, c7Msg.final_position.y⟩ ∧
    ((c7Msg.update_main_state 0 c7State).players.getD 0 (Player.create 0)).actor.facing =
      (c7State.players.getD 0 (Player.create 0)).actor.facing ∧
    ((c7Msg.update_main_state 0 c7State).players.getD 0 (Player.create 0)).last_shot_at =
      (c7State.players.getD 0 (Player.create 0)).last_shot_at ∧
    (∀ j : ℕ, j ≠ 0 →
      (c7Msg.update_main_state 0 c7State).players.getD j (Player.create 0) =
        c7State.players.getD j (Player.create 0)) ∧
    (c7Msg.update_main_state 0 c7State).players.length = c7State.players.length ∧
    (c7Msg.update_main_state 0 c7State).shots =
      c7State.shots ++ c7Msg.shots_made.map Actor.post_deserialize ∧
    (c7Msg.update_main_state 0 c7State).rocks = c7State.rocks ∧
    (c7Msg.update_main_state 0 c7State).score = c7State.score ∧
    (c7Msg.update_main_state 0 c7State).curr_time = c7State.curr_time ∧
    (c7Msg.update_main_state 0 c7State).play_sounds.play_shot =
      (if 0 < c7Msg.shots_made.length then true else c7State.play_sounds.play_shot) :=
  client_input_update_effect c7Msg 0 c7State (Player.create 0)
    (by simp [c7State])

end Blaster.Net

namespace Blaster.Net

/-- `NetFromServer` (net_structs.rs): the periodic server→client snapshot
of all players, all rocks and shots, the score and the server clock. -/
structure NetFromServer where
  players : List Player
  actors : List Actor
  score : ℤ
  server_time : ℝ

/-- `NetFromServer::make_from_state` (net_structs.rs): clone every
player (pre-serializing its actor), push all rocks then all shots into
one actor list and pre-serialize them, and record score and current
time. -/
noncomputable def NetFromServer.make_from_state (s : MainState) : NetFromServer :=
  { players := s.players.map fun p => { p with actor := p.actor.pre_serialize }
    actors := (s.rocks ++ s.shots).map Actor.pre_serialize
    score := s.score
    server_time := s.curr_time }

/-- Iterate the `while self.players.len() > state.players.len()
{ state.add_player(); }` padding loop `n` times. -/
noncomputable def addPlayers (s : MainState) : ℕ → MainState
  | 0 => s
  | n + 1 => addPlayers s.add_player.1 n

/-- The kept branch of the reconciliation loop (the index equals
`local_player_index`): the local player is not overwritten, only its
`last_shot_at` is shifted by the clock offset. -/
noncomputable def mergeKeep (td : ℝ) (p : Player) : Player :=
  { p with last_shot_at := p.last_shot_at - td }

/-- The replaced branch of the reconciliation loop: the local entry is
overwritten by the snapshot's player, its actor is post-deserialized and
its `last_shot_at` is shifted by the clock offset. -/
noncomputable def mergeRepl (td : ℝ) (q : Player) : Player :=
  { q with
    actor := q.actor.post_deserialize
    last_shot_at := q.last_shot_at - td }

/-- The per-index player merge of `NetFromServer::update_main_state`:
the source loops `i` over the snapshot indices in reverse, popping the
snapshot list, so each local index below the snapshot length is written
exactly once — kept for the local player index, replaced otherwise;
local entries beyond the snapshot length are untouched.  This recursion
walks the same assignments front-to-back with `k` as the running
index. -/
noncomputable def mergePlayers (li : Option ℕ) (td : ℝ) :
    ℕ → List Player → List Player → List Player
  | _, ps, [] => ps
  | _, [], _ :: _ => []
  | k, p :: ps, q :: qs =>
    (if li = some k then mergeKeep td p else mergeRepl td q) ::
      mergePlayers li td (k + 1) ps qs

/-- `NetFromServer::update_main_state` (net_structs.rs): overwrite the
score, clear rocks and shots, compute the clock offset, pin the local
clock to the server clock, grow the local roster to the snapshot's size,
merge players per index (skipping the local player), and refill rocks
and shots from the snapshot's post-deserialized actor list by tag
(player-tagged actors are dropped). -/
noncomputable def NetFromServer.update_main_state (m : NetFromServer)
    (s : MainState) : MainState :=
  let td := s.curr_time - m.server_time
  let s1 := addPlayers s (m.players.length - s.players.length)
  let decoded := m.actors.map Actor.post_deserialize
  { s1 with
    score := m.score
    curr_time := m.server_time
    players := mergePlayers s1.local_player_index td 0 s1.players m.players
    rocks := decoded.filter fun a =>
      match a.tag with | ActorType.rock => true | _ => false
    shots := decoded.filter fun a =>
      match a.tag with | ActorType.shot => true | _ => false }

theorem mergePlayers_length (li : Option ℕ) (td : ℝ) :
    ∀ (k : ℕ) (ps qs : List Player),
    (mergePlayers li td k ps qs).length = ps.length := by
  intro k ps qs
  induction ps generalizing k qs with
  | nil => cases qs <;> rfl
  | cons p ps ih =>
    cases qs with
    | nil => rfl
    | cons q qs => simp [mergePlayers, ih]

/-- Elementwise description of the merge: below the snapshot length the
entry is kept (local index) or replaced (other indices); beyond it the
local entry is untouched. -/
theorem mergePlayers_getD (li : Option ℕ) (td : ℝ) (d : Player) :
    ∀ (k : ℕ) (ps qs : List Player) (j : ℕ), j < ps.length →
    (mergePlayers li td k ps qs).getD j d =
      if j < qs.length then
        (if li = some (k + j) then mergeKeep td (ps.getD j d)
         else mergeRepl td (qs.getD j d))
      else ps.getD j d := by
  intro k ps qs j hj
  induction ps generalizing k qs j with
  | nil => simp at hj
  | cons p ps ih =>
    cases qs with
    | nil => simp [mergePlayers]
    | cons q qs =>
      cases j with
      | zero => simp [mergePlayers]
      | succ n =>
        simp only [mergePlayers, List.getD_cons_succ, List.length_cons]
        rw [ih (k + 1) qs n (by simpa using hj)]
        have harith : k + 1 + n = k + (n + 1) := by omega
        rw [harith]
        simp [Nat.succ_lt_succ_iff]

end Blaster.Net

namespace Blaster.Net

theorem addPlayers_players_length (s : MainState) :
    ∀ n : ℕ, (addPlayers s n).players.length = s.players.length + n := by
  intro n
  induction n generalizing s with
  | zero => rfl
  | succ k ih =>
    show (addPlayers s.add_player.1 k).players.length = _
    rw [ih]
    simp [MainState.add_player]
    omega

theorem addPlayers_local_player_index (s : MainState) :
    ∀ n : ℕ, (addPlayers s n).local_player_index = s.local_player_index := by
  intro n
  induction n generalizing s with
  | zero => rfl
  | succ k ih =>
    show (addPlayers s.add_player.1 k).local_player_index = _
    rw [ih]
    rfl

theorem addPlayers_players_getD (s : MainState) (d : Player) :
    ∀ (n j : ℕ), j < s.players.length →
    (addPlayers s n).players.getD j d = s.players.getD j d := by
  intro n
  induction n generalizing s with
  | zero => intro j _; rfl
  | succ k ih =>
    intro j hj
    show (addPlayers s.add_player.1 k).players.getD j d = _
    rw [ih s.add_player.1 j (by simp [MainState.add_player]; omega)]
    simp only [MainState.add_player]
    exact List.getD_append _ _ _ _ hj

/-- C2: a client with `local_player_index = some i` applying a snapshot
keeps `players[i].actor` (in particular its position) unchanged, shifting
only its shot cooldown by the clock offset, while every other index `j`
present in the snapshot is replaced by the snapshot's player `j`, whose
actor position becomes exactly the snapshot's serialized value. -/
theorem snapshot_preserves_local_player (m : NetFromServer) (s : MainState)
    (i j : ℕ) (d : Player)
    (hloc : s.local_player_index = some i)
    (hi_s : i < s.players.length) (hi_m : i < m.players.length)
    (hj : j < m.players.length) (hne : j ≠ i) :
    ((m.update_main_state s).players.getD i d).actor =
      (s.players.getD i d).actor ∧
    ((m.update_main_state s).players.getD i d).last_shot_at =
      (s.players.getD i d).last_shot_at - (s.curr_time - m.server_time) ∧
    ((m.update_main_state s).players.getD j d) =
      mergeRepl (s.curr_time - m.server_time) (m.players.getD j d) ∧
    ((m.update_main_state s).players.getD j d).actor.pos =
      ⟨(m.players.getD j d).actor.serial_interm.pos.x,
        (m.players.getD j d).actor.serial_interm.pos.y⟩ ∧
    (m.update_main_state s).players.length =
      max s.players.length m.players.length := by
  have hs1len := addPlayers_players_length s (m.players.length - s.players.length)
  have hs1loc := addPlayers_local_player_index s (m.players.length - s.players.length)
  have hipad : i < (addPlayers s (m.players.length - s.players.length)).players.length := by
    omega
  have hjpad : j < (addPlayers s (m.players.length - s.players.length)).players.length := by
    omega
  refine ⟨?_, ?_, ?_, ?_, ?_⟩
  · simp only [NetFromServer.update_main_state]
    rw [mergePlayers_getD _ _ _ _ _ _ _ hipad, if_pos (by omega : i < m.players.length),
      hs1loc, hloc, Nat.zero_add, if_pos rfl,
      addPlayers_players_getD s d _ i hi_s]
    rfl
  · simp only [NetFromServer.update_main_state]
    rw [mergePlayers_getD _ _ _ _ _ _ _ hipad, if_pos (by omega : i < m.players.length),
      hs1loc, hloc, Nat.zero_add, if_pos rfl,
      addPlayers_players_getD s d _ i hi_s]
    rfl
  · simp only [NetFromServer.update_main_state]
    rw [mergePlayers_getD _ _ _ _ _ _ _ hjpad, if_pos (by omega : j < m.players.length),
      hs1loc, hloc, Nat.zero_add]
    rw [if_neg (by simpa using fun h => hne h.symm)]
  · simp only [NetFromServer.update_main_state]
    rw [mergePlayers_getD _ _ _ _ _ _ _ hjpad, if_pos (by omega : j < m.players.length),
      hs1loc, hloc, Nat.zero_add]
    rw [if_neg (by simpa using fun h => hne h.symm)]
    rfl
  · simp only [NetFromServer.update_main_state]
    rw [mergePlayers_length]
    omega

end Blaster.Net

namespace Blaster.Net

/-- The client's locally predicted player 0 (its actor away from the
origin at (7, 8)). -/
noncomputable def c2Local0 : Player :=
  ⟨⟨ActorType.player, ⟨7, 8⟩, 0.5, ⟨1, 0⟩, 0, 12, false, ActorSerialIntermediate.init⟩,
    InputState.init, 4, 0⟩

/-- The client's local copy of player 1. -/
noncomputable def c2Local1 : Player :=
  ⟨⟨ActorType.player, ⟨2, 2⟩, 0, ⟨0, 0⟩, 0, 12, false, ActorSerialIntermediate.init⟩,
    InputState.init, 0, 1⟩

/-- The snapshot's player 0 (serialized position (100, 200)). -/
noncomputable def c2Remote0 : Player :=
  ⟨⟨ActorType.player, ⟨0, 0⟩, 1, ⟨0, 0⟩, 0, 12, false, ⟨⟨100, 200⟩, ⟨0, 0⟩⟩⟩,
    InputState.init, 6, 0⟩

/-- The snapshot's player 1 (serialized position (30, 40)). -/
noncomputable def c2Remote1 : Player :=
  ⟨⟨ActorType.player, ⟨0, 0⟩, 2, ⟨0, 0⟩, 0, 12, false, ⟨⟨30, 40⟩, ⟨5, 6⟩⟩⟩,
    InputState.init, 7, 1⟩

/-- A concrete snapshot carrying both players. -/
noncomputable def c2Msg : NetFromServer :=
  ⟨[c2Remote0, c2Remote1], [], 3, 10⟩

/-- A concrete client state with `local_player_index = some 0`. -/
noncomputable def c2State : MainState :=
  ⟨[c2Local0, c2Local1], [], [], 0, 12, some 0, InputState.init, [], 1, 1,
    ⟨false, false⟩⟩

/-- C2 witness at the concrete snapshot and client state. -/
theorem snapshot_preserves_local_player_witness :
    ((c2Msg.update_main_state c2State).players.getD 0 (Player.create 0)).actor =
      (c2State.players.getD 0 (Player.create 0)).actor ∧
    ((c2Msg.update_main_state c2State).players.getD 0 (Player.create 0)).last_shot_at =
      (c2State.players.getD 0 (Player.create 0)).last_shot_at -
        (c2State.curr_time - c2Msg.server_time) ∧
    ((c2Msg.update_main_state c2State).players.getD 1 (Player.create 0)) =
      mergeRepl (c2State.curr_time - c2Msg.server_time)
        (c2Msg.players.getD 1 (Player.create 0)) ∧
    ((c2Msg.update_main_state c2State).players.getD 1 (Player.create 0)).actor.pos =
      ⟨(c2Msg.players.getD 1 (Player.create 0)).actor.serial_interm.pos.x,
        (c2Msg.players.getD 1 (Player.create 0)).actor.serial_interm.pos.y⟩ ∧
    (c2Msg.update_main_state c2State).players.length =
      max c2State.players.length c2Msg.players.length :=
  snapshot_preserves_local_player c2Msg c2State 0 1 (Player.create 0)
    rfl (by simp [c2State]) (by simp [c2Msg]) (by simp [c2Msg]) (by omega)

end Blaster.Net

namespace Blaster.Net

/-- The wire image of an `Actor` under serde/bincode: exactly the fields
that are serialized.  `pos` and `velocity` are `#[serde(skip)]` and do
not appear; `serial_interm` does.  Bincode itself is a bit-exact
fixed-layout codec for these field types, so it is modelled as the
identity on this record. -/
structure ActorWire where
  tag : ActorType
  facing : ℝ
  ang_vel : ℝ
  bbox_size : ℝ
  kill : Bool
  serial_interm : ActorSerialIntermediate

/-- Serialize an actor: drop the skipped `pos` and `velocity`. -/
noncomputable def Actor.encode (a : Actor) : ActorWire :=
  ⟨a.tag, a.facing, a.ang_vel, a.bbox_size, a.kill, a.serial_interm⟩

/-- Deserialize an actor: the skipped fields come back as their
`default = "na::zero"` value. -/
noncomputable def ActorWire.decode (w : ActorWire) : Actor :=
  ⟨w.tag, ⟨0, 0⟩, w.facing, ⟨0, 0⟩, w.ang_vel, w.bbox_size, w.kill, w.serial_interm⟩

/-- The wire image of a `Player`: every field serialized, the actor in
its wire form. -/
structure PlayerWire where
  actor : ActorWire
  input : InputState
  last_shot_at : ℝ
  index : ℕ

/-- Serialize a player. -/
noncomputable def Player.encode (p : Player) : PlayerWire :=
  ⟨p.actor.encode, p.input, p.last_shot_at, p.index⟩

/-- Deserialize a player. -/
noncomputable def PlayerWire.decode (w : PlayerWire) : Player :=
  ⟨w.actor.decode, w.input, w.last_shot_at, w.index⟩

/-- The wire image of a `NetFromServer` snapshot. -/
structure NetFromServerWire where
  players : List PlayerWire
  actors : List ActorWire
  score : ℤ
  server_time : ℝ

/-- Serialize a snapshot. -/
noncomputable def NetFromServer.encode (m : NetFromServer) : NetFromServerWire :=
  ⟨m.players.map Player.encode, m.actors.map Actor.encode, m.score, m.server_time⟩

/-- Deserialize a snapshot. -/
noncomputable def NetFromServerWire.decode (w : NetFromServerWire) : NetFromServer :=
  ⟨w.players.map PlayerWire.decode, w.actors.map ActorWire.decode, w.score, w.server_time⟩

/-- One entity's full codec round trip: `pre_serialize`, encode, decode,
`post_deserialize`. -/
theorem actor_roundtrip (a : Actor) :
    (a.pre_serialize.encode.decode.post_deserialize.pos = a.pos) ∧
    (a.pre_serialize.encode.decode.post_deserialize.velocity = a.velocity) :=
  ⟨rfl, rfl⟩

/-- C3: the snapshot codec is a lossless round trip for the position,
velocity, score and server-time of every entity: encoding a
`ServerSnapshot` built from any world state and decoding it again (with
the pre-serialize step before encoding and the post-deserialize step
after decoding) reproduces every player's and every rock's and shot's
position and velocity exactly, along with the score and the server
clock. -/
theorem snapshot_roundtrip (s : MainState) :
    ((NetFromServer.make_from_state s).encode.decode.score = s.score) ∧
    ((NetFromServer.make_from_state s).encode.decode.server_time = s.curr_time) ∧
    ((NetFromServer.make_from_state s).encode.decode.players.map
        (fun p => (p.actor.post_deserialize.pos, p.actor.post_deserialize.velocity)) =
      s.players.map fun p => (p.actor.pos, p.actor.velocity)) ∧
    ((NetFromServer.make_from_state s).encode.decode.actors.map
        (fun a => (a.post_deserialize.pos, a.post_deserialize.velocity)) =
      (s.rocks ++ s.shots).map fun a => (a.pos, a.velocity)) := by
  refine ⟨rfl, rfl, ?_, ?_⟩
  · simp only [NetFromServer.make_from_state, NetFromServer.encode,
      NetFromServerWire.decode, List.map_map]
    rfl
  · simp only [NetFromServer.make_from_state, NetFromServer.encode,
      NetFromServerWire.decode, List.map_map]
    rfl

end Blaster.Net

namespace Blaster.Net

/-- `NetPlayerConnected` (net_structs.rs): the one-time handshake sent to
a newly connected client. -/
structure NetPlayerConnected where
  player_index : ℕ

/-- `NetPlayerConnected::make`. -/
def NetPlayerConnected.make (player_index : ℕ) : NetPlayerConnected :=
  ⟨player_index⟩

/-- The registration step of `server_recver` (networking.rs): under the
world lock, register one new player via `add_player` and double the
difficulty multiplier; then build the handshake message carrying the
returned index, which is sent to the client before the input loop
starts.  Returns the new state, the registered index and the handshake
message. -/
noncomputable def server_recver_register (s : MainState) :
    MainState × ℕ × NetPlayerConnected :=
  let r := s.add_player
  ({ r.1 with difficulty_mult := r.1.difficulty_mult * 2 }, r.2,
    NetPlayerConnected.make r.2)

/-- The state part of the registration step, for iterating over several
accepted connections. -/
noncomputable def server_recver_register_state (s : MainState) : MainState :=
  (server_recver_register s).1

/-- C6: each accepted input-port connection registers exactly one new
player, appended at the end (never reusing or compacting indices); its
index is the player count before registration, and the handshake message
carries exactly that index. -/
theorem server_recver_registers_one_player (s : MainState) :
    (server_recver_register s).1.players =
      s.players ++ [Player.create s.players.length] ∧
    (server_recver_register s).1.players.length = s.players.length + 1 ∧
    (server_recver_register s).2.1 = s.players.length ∧
    (server_recver_register s).2.2.player_index = s.players.length ∧
    (Player.create s.players.length).index = s.players.length := by
  refine ⟨rfl, ?_, rfl, rfl, rfl⟩
  simp [server_recver_register, MainState.add_player]

/-- C10: the registration step multiplies the difficulty multiplier by 2,
so after `n` accepted input connections the multiplier is the startup
value times `2^n` (nothing ever decreases it: no disconnection path
exists). -/
theorem difficulty_doubles_per_connection (s : MainState) (n : ℕ) :
    (server_recver_register_state^[n] s).difficulty_mult =
      s.difficulty_mult * 2 ^ n := by
  induction n generalizing s with
  | zero => simp
  | succ k ih =>
    rw [Function.iterate_succ_apply, ih]
    have hstep : (server_recver_register_state s).difficulty_mult =
        s.difficulty_mult * 2 := rfl
    rw [hstep]
    ring

/-- `recv_update` (networking.rs): deserialize one message from the
stream and run the callback on it; the deserialization outcome of
`bincode::deserialize_from` is the explicit `result` argument and the
callback's world-state mutation is `f`.  On a failed decode nothing
happens: no state change, no error propagation. -/
def recv_update {T : Type} (result : Except String T)
    (f : T → MainState → MainState) (s : MainState) : MainState :=
  match result with
  | Except.ok d => f d s
  | Except.error _ => s

/-- The receive loop: one `recv_update` per incoming deserialization
outcome, each applied to the state left by the previous one. -/
def recv_loop {T : Type} (msgs : List (Except String T))
    (f : T → MainState → MainState) (s : MainState) : MainState :=
  msgs.foldl (fun st m => recv_update m f st) s

/-- C8: a message that fails to deserialize changes nothing: the state is
returned untouched, the update callback is never invoked (the result
does not depend on it), and the loop just continues with the remaining
messages. -/
theorem recv_update_drops_failed_decode {T : Type} (e : String)
    (f g : T → MainState → MainState) (s : MainState)
    (msgs : List (Except String T)) :
    recv_update (Except.error e) f s = s ∧
    recv_update (Except.error e) f s = recv_update (Except.error e) g s ∧
    recv_loop (Except.error e :: msgs) f s = recv_loop msgs f s :=
  ⟨rfl, rfl, rfl⟩

end Blaster.Net
